import Mathlib

/-!
# ESC/POS driver for EM5820-like thermal printers: embedding of `escpos.c`

The C driver is embedded as pure functions over an explicit state.  The UART
driver of ESP-IDF is an external collaborator: it is modelled as a recorder of
the calls it receives together with scripted return values, so that every
statement below holds for an arbitrary behaviour of the transport.

Conventions of the embedding:

* bytes and unsigned integers are `Nat`, with `% 256` at every `uint8_t` cast;
  `int` values are `Int`;
* a pointer argument is an `Option` (`none` is `NULL`);
* a C string is the list of bytes found at its address; its content is what
  precedes the first NUL byte;
* `vTaskDelay` only lets time pass and is not represented.
-/

namespace Escpos

/-! ## Error codes (ESP-IDF `esp_err.h`) -/

/-- Error code type of ESP-IDF, a plain C `int`. -/
abbrev esp_err_t := Int

/-- Success code of ESP-IDF. -/
abbrev ESP_OK : esp_err_t := 0
/-- Generic failure code of ESP-IDF. -/
abbrev ESP_FAIL : esp_err_t := -1
/-- Out of memory. -/
abbrev ESP_ERR_NO_MEM : esp_err_t := 0x101
/-- Invalid argument. -/
abbrev ESP_ERR_INVALID_ARG : esp_err_t := 0x102
/-- Invalid state. -/
abbrev ESP_ERR_INVALID_STATE : esp_err_t := 0x103

/-- Pin value of `driver/uart.h` meaning that a pin is left as it is. -/
abbrev UART_PIN_NO_CHANGE : Int := -1

/-! ## The UART driver, as a recording transport -/

/-- One call received by the UART driver, with the arguments that matter. -/
inductive uart_call where
  | driver_install (port rx_buf tx_buf : Int)
  | param_config (port baud_rate : Int)
  | set_pin (port tx rx rts cts : Int)
  | driver_delete (port : Int)
  | write_bytes (port : Int) (data : List Nat)
  | wait_tx_done (port : Int)
deriving DecidableEq, Repr

/-- State of the UART driver: the calls received so far (oldest first) and the
values its functions are going to return.  `write_results` scripts the return
values of the next calls of `uart_write_bytes`; once the script is used up the
driver takes the whole buffer and returns its length. -/
structure uart_t where
  calls : List uart_call
  write_results : List Int
  wait_result : esp_err_t
  install_result : esp_err_t
  param_result : esp_err_t
  pin_result : esp_err_t
deriving DecidableEq, Repr

/-- Driver call `uart_write_bytes(port, buf, len)`: the driver is handed the
first `len` bytes found at `buf` and returns a byte count, or a negative value
on error. -/
def uart_write_bytes (port : Int) (buf : List Nat) (len : Nat) (u : uart_t) : Int × uart_t :=
  let u1 := { u with calls := u.calls ++ [uart_call.write_bytes port (buf.take len)] }
  match u.write_results with
  | [] => ((len : Int), u1)
  | r :: rs => (r, { u1 with write_results := rs })

/-- Driver call `uart_wait_tx_done(port, ticks)`. -/
def uart_wait_tx_done (port : Int) (u : uart_t) : esp_err_t × uart_t :=
  (u.wait_result, { u with calls := u.calls ++ [uart_call.wait_tx_done port] })

/-- Driver call `uart_driver_install(port, rx_buf, tx_buf, 0, NULL, 0)`. -/
def uart_driver_install (port rx_buf tx_buf : Int) (u : uart_t) : esp_err_t × uart_t :=
  (u.install_result, { u with calls := u.calls ++ [uart_call.driver_install port rx_buf tx_buf] })

/-- Driver call `uart_param_config(port, &uc)`; of `uc` only the baud rate varies. -/
def uart_param_config (port baud_rate : Int) (u : uart_t) : esp_err_t × uart_t :=
  (u.param_result, { u with calls := u.calls ++ [uart_call.param_config port baud_rate] })

/-- Driver call `uart_set_pin(port, tx, rx, rts, cts)`. -/
def uart_set_pin (port tx rx rts cts : Int) (u : uart_t) : esp_err_t × uart_t :=
  (u.pin_result, { u with calls := u.calls ++ [uart_call.set_pin port tx rx rts cts] })

/-- Driver call `uart_driver_delete(port)`; its result is ignored by the driver code. -/
def uart_driver_delete (port : Int) (u : uart_t) : uart_t :=
  { u with calls := u.calls ++ [uart_call.driver_delete port] }

/-- The buffers handed to `uart_write_bytes` in a list of calls, oldest first. -/
def writes_of (cs : List uart_call) : List (List Nat) :=
  cs.filterMap fun c =>
    match c with
    | uart_call.write_bytes _ d => some d
    | _ => none

/-- The buffers handed to `uart_write_bytes` so far, oldest first. -/
def uart_t.writes (u : uart_t) : List (List Nat) := writes_of u.calls

/-- The byte stream handed to the transport so far. -/
def uart_t.stream (u : uart_t) : List Nat := u.writes.flatten

/-! ## Data model of `escpos.c` -/

/-- The configuration record `escpos_config_t` as declared in `escpos.c`. -/
structure escpos_config_t where
  uart_num : Int
  tx_pin : Int
  rx_pin : Int
  baud_rate : Int
  tx_buffer_size : Int
deriving DecidableEq, Repr

/-- The session record `escpos_ctx_t`. -/
structure escpos_ctx_t where
  cfg : escpos_config_t
  inited : Bool
deriving DecidableEq, Repr

/-- The handle `escpos_handle_t`: a pointer to the session, `none` when `NULL`. -/
abbrev escpos_handle_t := Option escpos_ctx_t

/-- What an operation can see and change: the session behind the handle it is
given, and the UART driver. -/
structure world where
  h : escpos_handle_t
  uart : uart_t
deriving DecidableEq, Repr

/-- Cast to `uint8_t`. -/
def u8 (x : Nat) : Nat := x % 256

/-- C library `strlen`: number of bytes before the first NUL. -/
def strlen (s : List Nat) : Nat := (s.takeWhile fun b => b != 0).length

/-- The content of a C string: the bytes before the first NUL. -/
def cstr (s : List Nat) : List Nat := s.takeWhile fun b => b != 0

/-! ## Low-level write -/

/-- Embedding of `escpos_uart_write`. -/
def escpos_uart_write (buf : List Nat) (len : Nat) (w : world) : esp_err_t × world :=
  match w.h with
  | none => (ESP_ERR_INVALID_STATE, w)
  | some c =>
    if !c.inited then (ESP_ERR_INVALID_STATE, w)
    else
      let r := uart_write_bytes c.cfg.uart_num buf len w.uart
      (if r.1 < 0 then ESP_FAIL else ESP_OK, { w with uart := r.2 })

/-! ## Init / deinit -/

/-- Embedding of `escpos_init`.  `cfg` and `out` are the two pointer arguments
(`out = true` for a non-null output slot), `alloc_ok` tells whether `calloc`
succeeds.  The result carries the error code and the world in which `h` is the
content of the output slot. -/
def escpos_init (cfg : Option escpos_config_t) (out : Bool) (alloc_ok : Bool) (w : world) :
    esp_err_t × world :=
  match cfg with
  | none => (ESP_ERR_INVALID_ARG, w)
  | some cfg =>
    if !out then (ESP_ERR_INVALID_ARG, w)
    else if !alloc_ok then (ESP_ERR_NO_MEM, w)
    else
      let baud : Int := if cfg.baud_rate > 0 then cfg.baud_rate else 19200
      let rx_buf : Int := 256
      let tx_buf : Int := if cfg.tx_buffer_size > 0 then cfg.tx_buffer_size else 2048
      let r1 := uart_driver_install cfg.uart_num rx_buf tx_buf w.uart
      if r1.1 ≠ ESP_OK then (r1.1, { w with uart := r1.2 })
      else
        let r2 := uart_param_config cfg.uart_num baud r1.2
        if r2.1 ≠ ESP_OK then (r2.1, { w with uart := uart_driver_delete cfg.uart_num r2.2 })
        else
          let r3 := uart_set_pin cfg.uart_num cfg.tx_pin
            (if cfg.rx_pin ≥ 0 then cfg.rx_pin else UART_PIN_NO_CHANGE)
            UART_PIN_NO_CHANGE UART_PIN_NO_CHANGE r2.2
          if r3.1 ≠ ESP_OK then (r3.1, { w with uart := uart_driver_delete cfg.uart_num r3.2 })
          else
            let w1 : world := { h := some { cfg := cfg, inited := true }, uart := r3.2 }
            let r4 := escpos_uart_write [0x1B, 0x40] 2 w1
            (ESP_OK, r4.2)

/-- What a handle given to `escpos_deinit` points to: nothing (`NULL`), a
session record that is allocated, or memory that `free` has already released
(`last` is the record as it stood when it was released; it can no longer be
read). -/
inductive session_ptr where
  | null
  | live (c : escpos_ctx_t)
  | freed (last : escpos_ctx_t)
deriving DecidableEq, Repr

/-- Embedding of `escpos_deinit`, with the `free(h)` that ends it: the result
is the error code, what the handle points to after the call, and the driver.
On a handle whose memory was already released the function reads `h->inited`
from freed memory and frees it a second time; C gives this no meaning, and the
result is `none`. -/
def escpos_deinit (h : session_ptr) (u : uart_t) : Option (esp_err_t × session_ptr × uart_t) :=
  match h with
  | session_ptr.null => some (ESP_ERR_INVALID_ARG, session_ptr.null, u)
  | session_ptr.freed _ => none
  | session_ptr.live c =>
    let r : escpos_ctx_t × uart_t :=
      if c.inited then ({ c with inited := false }, uart_driver_delete c.cfg.uart_num u)
      else (c, u)
    some (ESP_OK, session_ptr.freed r.1, r.2)

/-! ## Text -/

/-- Embedding of `escpos_print_line`. -/
def escpos_print_line (line : Option (List Nat)) (w : world) : esp_err_t × world :=
  match line with
  | none => (ESP_OK, w)
  | some l =>
    let r := escpos_uart_write l (strlen l) w
    escpos_uart_write [0x0D, 0x0A] 2 r.2

/-- Embedding of `escpos_feed_lines`. -/
def escpos_feed_lines (lines : Nat) (w : world) : esp_err_t × world :=
  escpos_uart_write [0x1B, 0x64, lines] 3 w

/-- Embedding of `escpos_print_text`. -/
def escpos_print_text (text : Option (List Nat)) (w : world) : esp_err_t × world :=
  match w.h, text with
  | none, _ => (ESP_ERR_INVALID_ARG, w)
  | some _, none => (ESP_ERR_INVALID_ARG, w)
  | some _, some t =>
    let len := strlen t
    if len = 0 then (ESP_OK, w)
    else escpos_uart_write t len w

/-! ## Formatting -/

/-- Embedding of `escpos_set_bold`. -/
def escpos_set_bold (enable : Bool) (w : world) : esp_err_t × world :=
  escpos_uart_write [0x1B, 0x45, u8 (if enable then 1 else 0)] 3 w

/-- Embedding of `escpos_set_underline`.  The enumeration has no negative
enumerator, so its values are those of an `unsigned int` and the comparison
is unsigned. -/
def escpos_set_underline (style : Nat) (w : world) : esp_err_t × world :=
  let style := if style > 2 then 2 else style
  escpos_uart_write [0x1B, 0x2D, u8 style] 3 w

/-- Embedding of `escpos_set_justify`. -/
def escpos_set_justify (j : Nat) (w : world) : esp_err_t × world :=
  match w.h with
  | none => (ESP_ERR_INVALID_ARG, w)
  | some _ =>
    let val : Nat :=
      match j with
      | 0 => 0x00
      | 1 => 0x01
      | 2 => 0x02
      | _ => 0x00
    escpos_uart_write [0x1B, 0x61, val] 3 w

/-- Embedding of `escpos_cut`; `part` is the C parameter `partial`. -/
def escpos_cut (part : Bool) (w : world) : esp_err_t × world :=
  escpos_uart_write [0x1D, 0x56, u8 (if part then 1 else 0)] 3 w

/-- Embedding of `escpos_set_text_size`. -/
def escpos_set_text_size (width height : Nat) (w : world) : esp_err_t × world :=
  let width := if width > 7 then 7 else width
  let height := if height > 7 then 7 else height
  let n := u8 ((width <<< 4) ||| height)
  escpos_uart_write [0x1D, 0x21, n] 3 w

/-- Embedding of `escpos_set_reverse`. -/
def escpos_set_reverse (enable : Bool) (w : world) : esp_err_t × world :=
  escpos_uart_write [0x1D, 0x42, u8 (if enable then 1 else 0)] 3 w

/-- Embedding of `escpos_justify_left`. -/
def escpos_justify_left (w : world) : esp_err_t × world := escpos_set_justify 0 w

/-- Embedding of `escpos_justify_center`. -/
def escpos_justify_center (w : world) : esp_err_t × world := escpos_set_justify 1 w

/-- Embedding of `escpos_justify_right`. -/
def escpos_justify_right (w : world) : esp_err_t × world := escpos_set_justify 2 w

/-- Embedding of `escpos_set_italic`. -/
def escpos_set_italic (enable : Bool) (w : world) : esp_err_t × world :=
  escpos_uart_write [0x1B, u8 (0x34 + (if enable then 1 else 0))] 2 w

/-! ## Layout helpers -/

/-- Embedding of `escpos_print_separator`: the local buffer holds 32 copies of
`c` and the terminating NUL. -/
def escpos_print_separator (c : Nat) (w : world) : esp_err_t × world :=
  let line : List Nat := List.replicate 32 c ++ [0]
  escpos_print_line (some line) w

/-- Embedding of `escpos_flush`. -/
def escpos_flush (w : world) : esp_err_t × world :=
  match w.h with
  | none => (ESP_ERR_INVALID_ARG, w)
  | some c =>
    let r := uart_wait_tx_done c.cfg.uart_num w.uart
    (r.1, { w with uart := r.2 })

/-- C library `snprintf(line, size, "%s%*s%s", a, pad, "", b)` for `pad >= 1`:
the formatted text is `a`, then `pad` blanks, then `b`; at most `size - 1`
bytes of it are stored, followed by a NUL. -/
def snprintf_pad (size : Nat) (a : List Nat) (pad : Int) (b : List Nat) : List Nat :=
  (cstr a ++ List.replicate pad.toNat 0x20 ++ cstr b).take (size - 1) ++ [0]

/-- Embedding of `escpos_print_item_price`.  The two lengths are converted to
`int`; strings on the target are far shorter than `2^31` bytes, so the
conversions and the subtractions are exact. -/
def escpos_print_item_price (item price : Option (List Nat)) (line_width : Int) (w : world) :
    esp_err_t × world :=
  match w.h, item, price with
  | none, _, _ => (ESP_ERR_INVALID_ARG, w)
  | some _, none, _ => (ESP_ERR_INVALID_ARG, w)
  | some _, some _, none => (ESP_ERR_INVALID_ARG, w)
  | some _, some item, some price =>
    let line_width : Int := if line_width ≤ 0 then 32 else line_width
    let len_item : Int := strlen item
    let len_price : Int := strlen price
    let spaces : Int := line_width - len_item - len_price
    let spaces : Int := if spaces < 1 then 1 else spaces
    let line := snprintf_pad 128 item spaces price
    escpos_print_line (some line) w

/-! ## Bitmap -/

/-- Embedding of `escpos_print_bitmap`; `width` and `height` are `uint16_t`. -/
def escpos_print_bitmap (bitmap : Option (List Nat)) (width height : Nat) (w : world) :
    esp_err_t × world :=
  match w.h, bitmap with
  | none, _ => (ESP_ERR_INVALID_ARG, w)
  | some _, none => (ESP_ERR_INVALID_ARG, w)
  | some _, some bitmap =>
    let xL := u8 (width / 8 % 256)
    let xH := u8 (width / 8 / 256)
    let yL := u8 (height % 256)
    let yH := u8 (height / 256)
    let header : List Nat := [0x1D, 0x76, 0x30, 0x00, xL, xH, yL, yH]
    let r := escpos_uart_write header 8 w
    escpos_uart_write bitmap ((width / 8) * height) r.2

/-! ## QR code (declared in `escpos.h`, without a body in `escpos.c`) -/

/-- Modelled from the spec: the encoder behind `escpos_print_qr`, whose body is
missing from the sources.  The specification asks for a sequence of "GS ( k"
frames: select model, set module size, set error-correction level, store data,
trigger print; `escpos.h` names the codes: model (49, 65), module size,
error-correction level 48..51 for the levels 0=L, 1=M, 2=Q, 3=H.  Every frame
is `1D 28 6B pL pH 31 fn ...` with `pL + 256*pH` the number of bytes after
`pH`; module size and level are passed through. -/
def qr_encode (data : List Nat) (module_size ecc_level : Nat) : List Nat :=
  let k := strlen data + 3
  [0x1D, 0x28, 0x6B, 0x04, 0x00, 49, 65, 50, 0] ++
  [0x1D, 0x28, 0x6B, 0x03, 0x00, 49, 67, u8 module_size] ++
  [0x1D, 0x28, 0x6B, 0x03, 0x00, 49, 69, u8 (48 + ecc_level)] ++
  ([0x1D, 0x28, 0x6B, u8 (k % 256), u8 (k / 256), 49, 80, 48] ++ cstr data) ++
  [0x1D, 0x28, 0x6B, 0x03, 0x00, 49, 81, 48]

/-- Modelled from the spec: the operation `escpos_print_qr`, declared in
`escpos.h` and missing from `escpos.c`.  It follows the failure contract the
specification gives for every printing operation: a null payload is an invalid
argument and nothing is written; otherwise the frames are encoded and written
through `escpos_uart_write`, whose result is returned. -/
def escpos_print_qr (data : Option (List Nat)) (module_size ecc_level : Nat) (w : world) :
    esp_err_t × world :=
  match data with
  | none => (ESP_ERR_INVALID_ARG, w)
  | some d =>
    let bytes := qr_encode d module_size ecc_level
    escpos_uart_write bytes bytes.length w

/-! ## Vocabulary of the statements -/

/-- The world of an initialised session: a non-null handle whose flag is set,
with configuration `cfg`, over the driver state `u`. -/
def ready (cfg : escpos_config_t) (u : uart_t) : world :=
  { h := some { cfg := cfg, inited := true }, uart := u }

/-- Whether the handle is non-null and its session has the flag set. -/
def world.initialised (w : world) : Bool :=
  match w.h with
  | some c => c.inited
  | none => false

/-- The driver does not report an error for any of its next `n` writes. -/
def uart_t.accepts (u : uart_t) (n : Nat) : Prop :=
  ∀ r ∈ u.write_results.take n, (0 : Int) ≤ r

instance (u : uart_t) (n : Nat) : Decidable (u.accepts n) := by
  unfold uart_t.accepts; infer_instance

/-- A driver that has received no call and reports no error. -/
def uart_idle : uart_t :=
  { calls := [], write_results := [], wait_result := ESP_OK, install_result := ESP_OK,
    param_result := ESP_OK, pin_result := ESP_OK }

/-- The configuration used by `app_main` in `printer_test_main.c` (`UART_NUM_1` is 1). -/
def cfg_demo : escpos_config_t :=
  { uart_num := 1, tx_pin := 0, rx_pin := 1, baud_rate := 9600, tx_buffer_size := 2048 }

/-- The 16x16 test picture `logo_test` of `app_main`. -/
def logo_test : List Nat :=
  [0x00,0x00, 0x3C,0x3C, 0x42,0x42, 0xA9,0xA9,
   0x85,0x85, 0xA9,0xA9, 0x91,0x91, 0x42,0x42,
   0x3C,0x3C, 0x00,0x00, 0x00,0x00, 0x00,0x00,
   0x00,0x00, 0x00,0x00, 0x00,0x00, 0x00,0x00]

/-- The width used for an item/price line: 32 when `line_width <= 0`. -/
def item_price_width (line_width : Int) : Int := if line_width ≤ 0 then 32 else line_width

/-- The number of blanks between item and price as the specification words it:
`max(1, width - len(item) - len(price))`. -/
def item_price_spaces (item price : List Nat) (line_width : Int) : Nat :=
  (max 1 (item_price_width line_width - (cstr item).length - (cstr price).length)).toNat

/-- The item/price line as the specification words it: the item, the blanks,
the price. -/
def item_price_line (item price : List Nat) (line_width : Int) : List Nat :=
  cstr item ++ List.replicate (item_price_spaces item price line_width) 0x20 ++ cstr price

/-- The string "Texte gauche" of `app_main`, with its terminating NUL. -/
def texte_gauche : List Nat :=
  [0x54, 0x65, 0x78, 0x74, 0x65, 0x20, 0x67, 0x61, 0x75, 0x63, 0x68, 0x65, 0]

/-- A driver whose next write reports an error and which accepts the later ones. -/
def uart_first_fails : uart_t := { uart_idle with write_results := [-1] }

/-- A driver whose next write takes a single byte. -/
def uart_short_write : uart_t := { uart_idle with write_results := [1] }

/-- A session that exists but whose flag is cleared, over an idle driver. -/
def world_closed : world := { h := some { cfg := cfg_demo, inited := false }, uart := uart_idle }

/-- The world of a call with a `NULL` handle, over an idle driver. -/
def world_null : world := { h := none, uart := uart_idle }

/-- Number of `uart_driver_delete` calls in a list of calls: how many times
the transport was released. -/
def releases_of (cs : List uart_call) : Nat :=
  (cs.filter fun c =>
    match c with
    | uart_call.driver_delete _ => true
    | _ => false).length

/-- The value an integer takes when stored in a 32-bit signed `int`. -/
def to_int32 (x : Int) : Int := (x + 2 ^ 31) % 2 ^ 32 - 2 ^ 31

set_option maxRecDepth 8000

theorem take_strlen (l : List Nat) : l.take (strlen l) = cstr l := by
  unfold strlen cstr
  induction l with
  | nil => rfl
  | cons a t ih =>
    simp only [List.takeWhile_cons]
    by_cases h : a = 0
    · subst h; simp
    · have hb : (a != 0) = true := by simpa using h
      simp [hb, ih]

theorem uart_write_bytes_calls (port : Int) (buf : List Nat) (len : Nat) (u : uart_t) :
    (uart_write_bytes port buf len u).2.calls
      = u.calls ++ [uart_call.write_bytes port (buf.take len)] := by
  unfold uart_write_bytes
  cases u.write_results <;> rfl

theorem uart_write_bytes_script (port : Int) (buf : List Nat) (len : Nat) (u : uart_t) :
    (uart_write_bytes port buf len u).2.write_results = u.write_results.tail := by
  unfold uart_write_bytes
  cases u.write_results <;> rfl

theorem uart_write_bytes_result (port : Int) (buf : List Nat) (len : Nat) (u : uart_t) :
    (uart_write_bytes port buf len u).1 = u.write_results.headD (len : Int) := by
  unfold uart_write_bytes
  cases u.write_results <;> rfl

theorem escpos_uart_write_ready (cfg : escpos_config_t) (u : uart_t) (buf : List Nat) (len : Nat) :
    escpos_uart_write buf len (ready cfg u)
      = (if (uart_write_bytes cfg.uart_num buf len u).1 < 0 then ESP_FAIL else ESP_OK,
         ready cfg (uart_write_bytes cfg.uart_num buf len u).2) := rfl

theorem escpos_uart_write_closed (buf : List Nat) (len : Nat) (w : world)
    (hw : w.initialised = false) :
    escpos_uart_write buf len w = (ESP_ERR_INVALID_STATE, w) := by
  unfold escpos_uart_write
  unfold world.initialised at hw
  cases hh : w.h with
  | none => rfl
  | some c => rw [hh] at hw; simp at hw; simp [hw]

theorem writes_of_append (cs ds : List uart_call) :
    writes_of (cs ++ ds) = writes_of cs ++ writes_of ds := by
  simp [writes_of, List.filterMap_append]

theorem stream_of_calls (u v : uart_t) (cs : List uart_call) (h : v.calls = u.calls ++ cs) :
    v.stream = u.stream ++ (writes_of cs).flatten := by
  simp [uart_t.stream, uart_t.writes, h, writes_of_append]

theorem accepts_second (u : uart_t) (port : Int) (buf : List Nat) (len k : Nat)
    (h : u.accepts 2) :
    ¬ (uart_write_bytes port [0x0D, 0x0A] k (uart_write_bytes port buf len u).2).1 < 0 := by
  rw [uart_write_bytes_result, uart_write_bytes_script]
  unfold uart_t.accepts at h
  cases hr : u.write_results with
  | nil => simp
  | cons a t =>
    cases t with
    | nil => simp
    | cons b t2 =>
      have hb : (0 : Int) ≤ b := h b (by simp [hr])
      simpa using hb

theorem escpos_print_line_calls (cfg : escpos_config_t) (u : uart_t) (line : List Nat) :
    (escpos_print_line (some line) (ready cfg u)).2.uart.calls
      = u.calls ++ [uart_call.write_bytes cfg.uart_num (cstr line),
                    uart_call.write_bytes cfg.uart_num [0x0D, 0x0A]] := by
  show (escpos_uart_write [0x0D, 0x0A] 2
      (escpos_uart_write line (strlen line) (ready cfg u)).2).2.uart.calls = _
  rw [escpos_uart_write_ready]
  show (escpos_uart_write [0x0D, 0x0A] 2 (ready cfg _)).2.uart.calls = _
  rw [escpos_uart_write_ready]
  show (uart_write_bytes _ _ _ _).2.calls = _
  rw [uart_write_bytes_calls, uart_write_bytes_calls, take_strlen]
  simp

theorem escpos_print_line_ok (cfg : escpos_config_t) (u : uart_t) (line : List Nat)
    (hacc : u.accepts 2) :
    (escpos_print_line (some line) (ready cfg u)).1 = ESP_OK := by
  show (escpos_uart_write [0x0D, 0x0A] 2
      (escpos_uart_write line (strlen line) (ready cfg u)).2).1 = _
  rw [escpos_uart_write_ready]
  show (escpos_uart_write [0x0D, 0x0A] 2 (ready cfg _)).1 = _
  rw [escpos_uart_write_ready]
  show (if _ then ESP_FAIL else ESP_OK) = ESP_OK
  rw [if_neg (accepts_second u cfg.uart_num line (strlen line) 2 hacc)]

theorem cstr_nonzero (l : List Nat) : ∀ x ∈ cstr l, x ≠ 0 := by
  intro x hx
  have h := List.mem_takeWhile_imp hx
  simpa using h

theorem cstr_append_nul (l rest : List Nat) (h : ∀ x ∈ l, x ≠ 0) :
    cstr (l ++ 0 :: rest) = l := by
  unfold cstr
  induction l with
  | nil => simp
  | cons a t ih =>
    have ha : (a != 0) = true := by simpa using h a (by simp)
    have ht : ∀ x ∈ t, x ≠ 0 := fun x hx => h x (by simp [hx])
    simp only [List.cons_append, List.takeWhile_cons, ha, if_true]
    rw [ih ht]

theorem cstr_snprintf_pad (size : Nat) (a : List Nat) (pad : Int) (b : List Nat) :
    cstr (snprintf_pad size a pad b)
      = (cstr a ++ List.replicate pad.toNat 0x20 ++ cstr b).take (size - 1) := by
  unfold snprintf_pad
  apply cstr_append_nul
  intro x hx
  have hx2 := List.mem_of_mem_take hx
  simp only [List.mem_append, List.mem_replicate] at hx2
  rcases hx2 with (h1 | h2) | h3
  · exact cstr_nonzero a x h1
  · omega
  · exact cstr_nonzero b x h3

/-! ## Bitmap -/

/-- C1: on an initialised session, for 16-bit `width` and `height` and a buffer
that holds the `(width/8)*height` bytes of the picture, `escpos_print_bitmap`
hands the transport two writes and nothing else: the 8-byte header
`1D 76 30 00 xL xH yL yH` with `xL = (width/8) mod 256`, `xH = (width/8) div 256`,
`yL = height mod 256`, `yH = height div 256`, then exactly the first
`(width/8)*height` bytes of the buffer; the session is left as it was. -/
theorem print_bitmap_header_payload (cfg : escpos_config_t) (u : uart_t) (bitmap : List Nat)
    (width height : Nat) (hwidth : width < 65536) (hheight : height < 65536)
    (hbuf : width / 8 * height ≤ bitmap.length) :
    (escpos_print_bitmap (some bitmap) width height (ready cfg u)).2.h = (ready cfg u).h ∧
    (escpos_print_bitmap (some bitmap) width height (ready cfg u)).2.uart.calls
      = u.calls ++
        [uart_call.write_bytes cfg.uart_num
           [0x1D, 0x76, 0x30, 0x00, width / 8 % 256, width / 8 / 256, height % 256, height / 256],
         uart_call.write_bytes cfg.uart_num (bitmap.take (width / 8 * height))] ∧
    (bitmap.take (width / 8 * height)).length = width / 8 * height := by
  have hxH : width / 8 / 256 % 256 = width / 8 / 256 := Nat.mod_eq_of_lt (by omega)
  have hyH : height / 256 % 256 = height / 256 := Nat.mod_eq_of_lt (by omega)
  refine ⟨rfl, ?_, ?_⟩
  · show (escpos_uart_write bitmap (width / 8 * height)
        (escpos_uart_write _ 8 (ready cfg u)).2).2.uart.calls = _
    rw [escpos_uart_write_ready]
    show (escpos_uart_write bitmap (width / 8 * height) (ready cfg _)).2.uart.calls = _
    rw [escpos_uart_write_ready]
    show (uart_write_bytes _ _ _ _).2.calls = _
    rw [uart_write_bytes_calls, uart_write_bytes_calls]
    simp [u8, hxH, hyH]
  · simp [List.length_take, hbuf]

/-- C1, at the picture printed by `app_main`: for `width = 16`, `height = 16`
the header is `1D 76 30 00 02 00 10 00` and the payload is the 32 bytes of
`logo_test`. -/
theorem print_bitmap_header_payload_demo :
    (escpos_print_bitmap (some logo_test) 16 16 (ready cfg_demo uart_idle)).2.uart.calls
      = [uart_call.write_bytes 1 [0x1D, 0x76, 0x30, 0x00, 0x02, 0x00, 0x10, 0x00],
         uart_call.write_bytes 1 logo_test] ∧
    logo_test.length = 32 := by
  have h := print_bitmap_header_payload cfg_demo uart_idle logo_test 16 16
    (by decide) (by decide) (by decide)
  refine ⟨?_, by decide⟩
  rw [h.2.1]
  decide

/-! ## Text -/

/-- C2: on an initialised session `escpos_print_line`, given a string (in
particular any non-empty NUL-terminated one), hands the transport exactly the
bytes of the string and then `0D 0A`, in two writes and with no other call, so
that the byte stream grows by the string followed by CR LF; it returns success
when the transport reports no error for these two writes. -/
theorem print_line_bytes_crlf (cfg : escpos_config_t) (u : uart_t) (line : List Nat) :
    (escpos_print_line (some line) (ready cfg u)).2.h = (ready cfg u).h ∧
    (escpos_print_line (some line) (ready cfg u)).2.uart.calls
      = u.calls ++ [uart_call.write_bytes cfg.uart_num (cstr line),
                    uart_call.write_bytes cfg.uart_num [0x0D, 0x0A]] ∧
    (escpos_print_line (some line) (ready cfg u)).2.uart.stream
      = u.stream ++ cstr line ++ [0x0D, 0x0A] ∧
    (u.accepts 2 → (escpos_print_line (some line) (ready cfg u)).1 = ESP_OK) := by
  have hcalls := escpos_print_line_calls cfg u line
  refine ⟨rfl, hcalls, ?_, ?_⟩
  · rw [stream_of_calls u _ _ hcalls]
    simp [writes_of]
  · exact escpos_print_line_ok cfg u line

/-- C2, at the first line printed by `app_main`, "Bonjour EM5820 !", on a
transport that accepts everything: the two writes are the 16 bytes of the text
and CR LF, and the call succeeds. -/
theorem print_line_bytes_crlf_demo :
    (escpos_print_line
        (some [0x42, 0x6F, 0x6E, 0x6A, 0x6F, 0x75, 0x72, 0x20,
               0x45, 0x4D, 0x35, 0x38, 0x32, 0x30, 0x20, 0x21, 0])
        (ready cfg_demo uart_idle)).2.uart.calls
      = [uart_call.write_bytes 1
           [0x42, 0x6F, 0x6E, 0x6A, 0x6F, 0x75, 0x72, 0x20,
            0x45, 0x4D, 0x35, 0x38, 0x32, 0x30, 0x20, 0x21],
         uart_call.write_bytes 1 [0x0D, 0x0A]] ∧
    (escpos_print_line
        (some [0x42, 0x6F, 0x6E, 0x6A, 0x6F, 0x75, 0x72, 0x20,
               0x45, 0x4D, 0x35, 0x38, 0x32, 0x30, 0x20, 0x21, 0])
        (ready cfg_demo uart_idle)).1 = ESP_OK := by
  have h := print_line_bytes_crlf cfg_demo uart_idle
    [0x42, 0x6F, 0x6E, 0x6A, 0x6F, 0x75, 0x72, 0x20,
     0x45, 0x4D, 0x35, 0x38, 0x32, 0x30, 0x20, 0x21, 0]
  refine ⟨?_, h.2.2.2 (by decide)⟩
  rw [h.2.1]
  decide

/-! ## Formatting -/

theorem clamp7_pack (a b : Nat) (ha : a ≤ 7) (hb : b ≤ 7) :
    u8 ((a <<< 4) ||| b) = (a <<< 4) ||| b := by
  unfold u8
  interval_cases a <;> interval_cases b <;> rfl

/-- C3: on an initialised session `escpos_set_text_size` writes exactly the
three bytes `1D 21 n` with `n = (min(width,7) << 4) | min(height,7)`, for every
`width` and `height` (in particular all 8-bit ones); when both exceed 7 the
byte is `0x77`. -/
theorem set_text_size_bytes (cfg : escpos_config_t) (u : uart_t) (width height : Nat) :
    (escpos_set_text_size width height (ready cfg u)).2.h = (ready cfg u).h ∧
    (escpos_set_text_size width height (ready cfg u)).2.uart.calls
      = u.calls ++
        [uart_call.write_bytes cfg.uart_num [0x1D, 0x21, (min width 7 <<< 4) ||| min height 7]] ∧
    (7 < width → 7 < height →
      (escpos_set_text_size width height (ready cfg u)).2.uart.calls
        = u.calls ++ [uart_call.write_bytes cfg.uart_num [0x1D, 0x21, 0x77]]) := by
  have hw : (if width > 7 then 7 else width) = min width 7 := by
    split <;> omega
  have hh : (if height > 7 then 7 else height) = min height 7 := by
    split <;> omega
  have hcalls : (escpos_set_text_size width height (ready cfg u)).2.uart.calls
      = u.calls ++
        [uart_call.write_bytes cfg.uart_num
          [0x1D, 0x21, (min width 7 <<< 4) ||| min height 7]] := by
    show (escpos_uart_write _ 3 (ready cfg u)).2.uart.calls = _
    rw [escpos_uart_write_ready]
    show (uart_write_bytes _ _ _ _).2.calls = _
    rw [uart_write_bytes_calls, hw, hh,
      clamp7_pack (min width 7) (min height 7) (Nat.min_le_right _ _) (Nat.min_le_right _ _)]
    simp
  refine ⟨rfl, hcalls, ?_⟩
  intro h1 h2
  rw [hcalls, Nat.min_eq_right (Nat.le_of_lt h1), Nat.min_eq_right (Nat.le_of_lt h2)]
  rfl

/-- C10: on an initialised session `escpos_set_underline` writes exactly the
three bytes `1B 2D s`, where `s` is the style when it is 0, 1 or 2 and `s = 2`
for every larger value of the (unsigned) enumeration; `s` is always in `[0,2]`. -/
theorem set_underline_bytes (cfg : escpos_config_t) (u : uart_t) (style : Nat) :
    (escpos_set_underline style (ready cfg u)).2.h = (ready cfg u).h ∧
    (escpos_set_underline style (ready cfg u)).2.uart.calls
      = u.calls ++
        [uart_call.write_bytes cfg.uart_num [0x1B, 0x2D, if style ≤ 2 then style else 2]] ∧
    (if style ≤ 2 then style else 2) ≤ 2 := by
  have hs : u8 (if style > 2 then 2 else style) = if style ≤ 2 then style else 2 := by
    unfold u8
    split <;> split <;> omega
  refine ⟨rfl, ?_, ?_⟩
  · show (escpos_uart_write _ 3 (ready cfg u)).2.uart.calls = _
    rw [escpos_uart_write_ready]
    show (uart_write_bytes _ _ _ _).2.calls = _
    rw [uart_write_bytes_calls, hs]
    simp
  · split <;> omega

/-! ## Item and price -/

theorem escpos_print_item_price_line (cfg : escpos_config_t) (u : uart_t)
    (item price : List Nat) (line_width : Int) :
    escpos_print_item_price (some item) (some price) line_width (ready cfg u)
      = escpos_print_line
          (some (snprintf_pad 128 item (item_price_spaces item price line_width) price))
          (ready cfg u) := by
  have hs : (if line_width ≤ 0 then (32 : Int) else line_width) - (strlen item : Int)
        - (strlen price : Int) < 1 →
      ((1 : Int)) = ((item_price_spaces item price line_width : Nat) : Int) := by
    intro h
    unfold item_price_spaces item_price_width
    unfold strlen at h
    unfold cstr
    omega
  have hs2 : ¬ (if line_width ≤ 0 then (32 : Int) else line_width) - (strlen item : Int)
        - (strlen price : Int) < 1 →
      (if line_width ≤ 0 then (32 : Int) else line_width) - (strlen item : Int)
        - (strlen price : Int) = ((item_price_spaces item price line_width : Nat) : Int) := by
    intro h
    unfold item_price_spaces item_price_width
    unfold strlen at h ⊢
    unfold cstr
    omega
  show escpos_print_line (some (snprintf_pad 128 item
      (if (if line_width ≤ 0 then (32 : Int) else line_width) - (strlen item : Int)
        - (strlen price : Int) < 1 then 1
       else (if line_width ≤ 0 then (32 : Int) else line_width) - (strlen item : Int)
        - (strlen price : Int)) price)) (ready cfg u) = _
  by_cases h : (if line_width ≤ 0 then (32 : Int) else line_width) - (strlen item : Int)
        - (strlen price : Int) < 1
  · rw [if_pos h, hs h]
  · rw [if_neg h, hs2 h]

theorem escpos_print_item_price_calls (cfg : escpos_config_t) (u : uart_t)
    (item price : List Nat) (line_width : Int) :
    (escpos_print_item_price (some item) (some price) line_width (ready cfg u)).2.uart.calls
      = u.calls ++
        [uart_call.write_bytes cfg.uart_num ((item_price_line item price line_width).take 127),
         uart_call.write_bytes cfg.uart_num [0x0D, 0x0A]] := by
  rw [escpos_print_item_price_line, escpos_print_line_calls, cstr_snprintf_pad]
  simp [item_price_line]

/-- C4 (as stated, refuted): for an item of 130 letters `A`, the price "1" and
width 32, the line asked for is the 130 letters, one blank and the price (132
bytes), but the transport is handed only the first 127 bytes, all of them `A`,
before CR LF: the line is truncated by the 128-byte buffer. -/
theorem print_item_price_truncates :
    item_price_line (List.replicate 130 0x41 ++ [0]) [0x31, 0] 32
      = List.replicate 130 0x41 ++ [0x20, 0x31] ∧
    (escpos_print_item_price (some (List.replicate 130 0x41 ++ [0])) (some [0x31, 0]) 32
        (ready cfg_demo uart_idle)).2.uart.writes
      = [List.replicate 127 0x41, [0x0D, 0x0A]] ∧
    List.replicate 127 0x41 ≠ List.replicate 130 0x41 ++ [0x20, 0x31] := by
  refine ⟨by decide, ?_, by decide⟩
  unfold uart_t.writes
  rw [escpos_print_item_price_calls]
  decide

/-- C4 (amended): on an initialised session, whenever the line made of the
item, `max(1, width - len(item) - len(price))` blanks and the price (width 32
when `line_width <= 0`) is at most 127 bytes long, `escpos_print_item_price`
prints exactly that line: the transport is handed it whole and then CR LF,
with no other call.  When item and price together reach the width there is
one blank and the line is longer than the width. -/
theorem print_item_price_fits (cfg : escpos_config_t) (u : uart_t)
    (item price : List Nat) (line_width : Int)
    (hfit : (item_price_line item price line_width).length ≤ 127) :
    (escpos_print_item_price (some item) (some price) line_width (ready cfg u)).2.h
      = (ready cfg u).h ∧
    (escpos_print_item_price (some item) (some price) line_width (ready cfg u)).2.uart.calls
      = u.calls ++
        [uart_call.write_bytes cfg.uart_num (item_price_line item price line_width),
         uart_call.write_bytes cfg.uart_num [0x0D, 0x0A]] ∧
    (escpos_print_item_price (some item) (some price) line_width (ready cfg u)).2.uart.stream
      = u.stream ++ item_price_line item price line_width ++ [0x0D, 0x0A] ∧
    (item_price_width line_width ≤ (cstr item).length + (cstr price).length →
      item_price_spaces item price line_width = 1 ∧
      item_price_width line_width < (item_price_line item price line_width).length) := by
  have hcalls : (escpos_print_item_price (some item) (some price) line_width
        (ready cfg u)).2.uart.calls
      = u.calls ++
        [uart_call.write_bytes cfg.uart_num (item_price_line item price line_width),
         uart_call.write_bytes cfg.uart_num [0x0D, 0x0A]] := by
    rw [escpos_print_item_price_calls, List.take_of_length_le hfit]
  refine ⟨?_, hcalls, ?_, ?_⟩
  · rw [escpos_print_item_price_line]
    rfl
  · rw [stream_of_calls u _ _ hcalls]
    simp [writes_of]
  · intro hw
    have h1 : item_price_spaces item price line_width = 1 := by
      unfold item_price_spaces
      omega
    refine ⟨h1, ?_⟩
    unfold item_price_line
    rw [h1]
    simp only [List.length_append, List.length_replicate]
    omega

/-- C4 (amended), at the line printed by `app_main`: for the item
"Texte gauche", the price "32" and width 32 the line is the item, 18 blanks and
the price. -/
theorem print_item_price_fits_demo :
    (escpos_print_item_price (some texte_gauche) (some [0x33, 0x32, 0]) 32
        (ready cfg_demo uart_idle)).2.uart.calls
      = [uart_call.write_bytes 1
           ([0x54, 0x65, 0x78, 0x74, 0x65, 0x20, 0x67, 0x61, 0x75, 0x63, 0x68, 0x65]
              ++ List.replicate 18 0x20 ++ [0x33, 0x32]),
         uart_call.write_bytes 1 [0x0D, 0x0A]] := by
  have h := print_item_price_fits cfg_demo uart_idle texte_gauche [0x33, 0x32, 0] 32
    (by decide)
  rw [h.2.1]
  decide

/-! ## Operations on a null handle or a closed session -/

theorem escpos_print_line_closed (l : List Nat) (w : world) (hw : w.initialised = false) :
    escpos_print_line (some l) w = (ESP_ERR_INVALID_STATE, w) := by
  show escpos_uart_write [0x0D, 0x0A] 2 (escpos_uart_write l (strlen l) w).2 = _
  rw [escpos_uart_write_closed l _ w hw]
  exact escpos_uart_write_closed _ _ w hw

/-- C5: every print or format operation, whatever its arguments, called with
a null handle or on a session whose flag is false, leaves the session and the
transport exactly as they were: no call reaches the driver, so nothing is
written. -/
theorem closed_session_untouched (w : world) (hw : w.initialised = false)
    (line text item price bitmap : Option (List Nat))
    (lines style j width height c bw bh : Nat) (enable part : Bool) (line_width : Int) :
    (escpos_print_line line w).2 = w ∧
    (escpos_print_text text w).2 = w ∧
    (escpos_feed_lines lines w).2 = w ∧
    (escpos_set_bold enable w).2 = w ∧
    (escpos_set_underline style w).2 = w ∧
    (escpos_set_justify j w).2 = w ∧
    (escpos_justify_left w).2 = w ∧
    (escpos_justify_center w).2 = w ∧
    (escpos_justify_right w).2 = w ∧
    (escpos_set_text_size width height w).2 = w ∧
    (escpos_set_reverse enable w).2 = w ∧
    (escpos_set_italic enable w).2 = w ∧
    (escpos_cut part w).2 = w ∧
    (escpos_print_separator c w).2 = w ∧
    (escpos_print_item_price item price line_width w).2 = w ∧
    (escpos_print_bitmap bitmap bw bh w).2 = w := by
  have key := fun (buf : List Nat) (len : Nat) => escpos_uart_write_closed buf len w hw
  have hline : ∀ l, (escpos_print_line l w).2 = w := by
    intro l
    cases l with
    | none => rfl
    | some l => rw [escpos_print_line_closed l w hw]
  have hjust : ∀ k, (escpos_set_justify k w).2 = w := by
    intro k
    unfold escpos_set_justify
    cases hh : w.h with
    | none => rfl
    | some c => simp only [key]
  refine ⟨hline line, ?_, ?_, ?_, ?_, hjust j, hjust 0, hjust 1, hjust 2, ?_, ?_, ?_, ?_,
    hline _, ?_, ?_⟩
  · unfold escpos_print_text
    cases hh : w.h with
    | none => rfl
    | some c =>
      cases text with
      | none => rfl
      | some t =>
        simp only [key]
        split <;> rfl
  · unfold escpos_feed_lines; rw [key]
  · unfold escpos_set_bold; rw [key]
  · unfold escpos_set_underline; simp only [key]
  · unfold escpos_set_text_size; simp only [key]
  · unfold escpos_set_reverse; rw [key]
  · unfold escpos_set_italic; rw [key]
  · unfold escpos_cut; rw [key]
  · unfold escpos_print_item_price
    cases hh : w.h with
    | none => rfl
    | some c =>
      cases item with
      | none => rfl
      | some i =>
        cases price with
        | none => rfl
        | some p => simp only [hline]
  · unfold escpos_print_bitmap
    cases hh : w.h with
    | none => rfl
    | some c =>
      cases bitmap with
      | none => rfl
      | some b => simp only [key]

/-- C5, at a session whose flag is cleared: printing "Texte gauche" leaves the
idle driver without any call. -/
theorem closed_session_untouched_demo :
    (escpos_print_line (some texte_gauche) world_closed).2.uart.calls = [] ∧
    (escpos_print_bitmap (some logo_test) 16 16 world_closed).2 = world_closed := by
  have h := closed_session_untouched world_closed rfl (some texte_gauche) none none none
    (some logo_test) 0 0 0 0 0 0 16 16 false false 0
  refine ⟨?_, h.2.2.2.2.2.2.2.2.2.2.2.2.2.2.2⟩
  rw [h.1]
  rfl

/-- C6 (as stated, refuted): with a null handle `escpos_print_line` given a
null line returns success and `escpos_set_justify` returns the invalid-argument
code; on a session whose flag is cleared `escpos_print_text` given the empty
string returns success.  None of these is the invalid-state code. -/
theorem closed_session_other_codes :
    (escpos_print_line none world_null).1 = ESP_OK ∧
    (escpos_set_justify 1 world_null).1 = ESP_ERR_INVALID_ARG ∧
    (escpos_print_text (some [0]) world_closed).1 = ESP_OK ∧
    ESP_OK ≠ ESP_ERR_INVALID_STATE ∧
    ESP_ERR_INVALID_ARG ≠ ESP_ERR_INVALID_STATE := by
  decide

/-- C6 (amended): with a null handle or on a session whose flag is false,
* `feed_lines`, `set_bold`, `set_underline`, `set_text_size`, `set_reverse`,
  `set_italic`, `cut` and `print_separator` return the invalid-state code;
* `print_line` returns the invalid-state code for a non-null line and success
  for a null line;
* with a null handle `set_justify`, the three justify helpers, `print_text`,
  `print_item_price`, `print_bitmap` and `flush` return the invalid-argument
  code;
* with a non-null handle whose flag is false `set_justify` and its helpers
  return the invalid-state code, `print_text` returns the invalid-argument
  code for a null text, success for the empty text and the invalid-state code
  otherwise, and `print_item_price` and `print_bitmap` return the
  invalid-argument code when a data pointer is null and the invalid-state code
  otherwise. -/
theorem closed_session_codes (w : world) (hw : w.initialised = false)
    (l t item price bitmap : List Nat) (text oitem oprice obitmap : Option (List Nat))
    (lines style j width height c bw bh : Nat) (enable part : Bool) (line_width : Int) :
    ((escpos_feed_lines lines w).1 = ESP_ERR_INVALID_STATE ∧
     (escpos_set_bold enable w).1 = ESP_ERR_INVALID_STATE ∧
     (escpos_set_underline style w).1 = ESP_ERR_INVALID_STATE ∧
     (escpos_set_text_size width height w).1 = ESP_ERR_INVALID_STATE ∧
     (escpos_set_reverse enable w).1 = ESP_ERR_INVALID_STATE ∧
     (escpos_set_italic enable w).1 = ESP_ERR_INVALID_STATE ∧
     (escpos_cut part w).1 = ESP_ERR_INVALID_STATE ∧
     (escpos_print_separator c w).1 = ESP_ERR_INVALID_STATE) ∧
    ((escpos_print_line (some l) w).1 = ESP_ERR_INVALID_STATE ∧
     (escpos_print_line none w).1 = ESP_OK) ∧
    (w.h = none →
      (escpos_set_justify j w).1 = ESP_ERR_INVALID_ARG ∧
      (escpos_justify_left w).1 = ESP_ERR_INVALID_ARG ∧
      (escpos_justify_center w).1 = ESP_ERR_INVALID_ARG ∧
      (escpos_justify_right w).1 = ESP_ERR_INVALID_ARG ∧
      (escpos_print_text text w).1 = ESP_ERR_INVALID_ARG ∧
      (escpos_print_item_price oitem oprice line_width w).1 = ESP_ERR_INVALID_ARG ∧
      (escpos_print_bitmap obitmap bw bh w).1 = ESP_ERR_INVALID_ARG ∧
      (escpos_flush w).1 = ESP_ERR_INVALID_ARG) ∧
    (w.h ≠ none →
      (escpos_set_justify j w).1 = ESP_ERR_INVALID_STATE ∧
      (escpos_justify_left w).1 = ESP_ERR_INVALID_STATE ∧
      (escpos_justify_center w).1 = ESP_ERR_INVALID_STATE ∧
      (escpos_justify_right w).1 = ESP_ERR_INVALID_STATE ∧
      (escpos_print_text none w).1 = ESP_ERR_INVALID_ARG ∧
      (strlen t = 0 → (escpos_print_text (some t) w).1 = ESP_OK) ∧
      (strlen t ≠ 0 → (escpos_print_text (some t) w).1 = ESP_ERR_INVALID_STATE) ∧
      (escpos_print_item_price none oprice line_width w).1 = ESP_ERR_INVALID_ARG ∧
      (escpos_print_item_price oitem none line_width w).1 = ESP_ERR_INVALID_ARG ∧
      (escpos_print_item_price (some item) (some price) line_width w).1
        = ESP_ERR_INVALID_STATE ∧
      (escpos_print_bitmap none bw bh w).1 = ESP_ERR_INVALID_ARG ∧
      (escpos_print_bitmap (some bitmap) bw bh w).1 = ESP_ERR_INVALID_STATE) := by
  have key := fun (buf : List Nat) (len : Nat) => escpos_uart_write_closed buf len w hw
  have hline := fun (x : List Nat) => escpos_print_line_closed x w hw
  refine ⟨⟨?_, ?_, ?_, ?_, ?_, ?_, ?_, ?_⟩, ⟨?_, rfl⟩, ?_, ?_⟩
  · unfold escpos_feed_lines; rw [key]
  · unfold escpos_set_bold; rw [key]
  · unfold escpos_set_underline; simp only [key]
  · unfold escpos_set_text_size; simp only [key]
  · unfold escpos_set_reverse; rw [key]
  · unfold escpos_set_italic; rw [key]
  · unfold escpos_cut; rw [key]
  · unfold escpos_print_separator; simp only [hline]
  · rw [hline]
  · intro hh
    have hjust : ∀ k, (escpos_set_justify k w).1 = ESP_ERR_INVALID_ARG := by
      intro k
      unfold escpos_set_justify
      rw [hh]
    refine ⟨hjust j, hjust 0, hjust 1, hjust 2, ?_, ?_, ?_, ?_⟩
    · unfold escpos_print_text; rw [hh]
    · unfold escpos_print_item_price; rw [hh]
    · unfold escpos_print_bitmap; rw [hh]
    · unfold escpos_flush; rw [hh]
  · intro hh
    obtain ⟨s, hs⟩ := Option.ne_none_iff_exists'.mp hh
    have hjust : ∀ k, (escpos_set_justify k w).1 = ESP_ERR_INVALID_STATE := by
      intro k
      unfold escpos_set_justify
      rw [hs]
      simp only [key]
    refine ⟨hjust j, hjust 0, hjust 1, hjust 2, ?_, ?_, ?_, ?_, ?_, ?_, ?_, ?_⟩
    · unfold escpos_print_text; rw [hs]
    · intro h0
      unfold escpos_print_text
      rw [hs]
      simp only [h0, if_true]
    · intro h0
      unfold escpos_print_text
      rw [hs]
      simp only [h0, if_false, key]
    · unfold escpos_print_item_price; rw [hs]
    · unfold escpos_print_item_price
      rw [hs]
      cases oitem <;> rfl
    · unfold escpos_print_item_price
      rw [hs]
      simp only [hline]
    · unfold escpos_print_bitmap; rw [hs]
    · unfold escpos_print_bitmap
      rw [hs]
      simp only [key]

/-- C6 (amended), at a session whose flag is cleared and at a null handle. -/
theorem closed_session_codes_demo :
    (escpos_feed_lines 3 world_closed).1 = ESP_ERR_INVALID_STATE ∧
    (escpos_print_line (some texte_gauche) world_closed).1 = ESP_ERR_INVALID_STATE ∧
    (escpos_print_bitmap (some logo_test) 16 16 world_null).1 = ESP_ERR_INVALID_ARG := by
  have h1 := closed_session_codes world_closed rfl texte_gauche [] [] [] logo_test
    none none none none 3 0 0 0 0 0 16 16 false false 0
  have h2 := closed_session_codes world_null rfl texte_gauche [] [] [] logo_test
    none none none (some logo_test) 3 0 0 0 0 0 16 16 false false 0
  exact ⟨h1.1.1, h1.2.1.1, (h2.2.2.1 rfl).2.2.2.2.2.2.1⟩

/-! ## Empty lines -/

/-- C7 (as stated, refuted): on an initialised session `escpos_print_line`
given the empty string reaches the driver twice, first with no byte and then
with CR LF, so the two bytes `0D 0A` are written. -/
theorem print_line_empty_writes_crlf :
    (escpos_print_line (some [0]) (ready cfg_demo uart_idle)).2.uart.calls
      = [uart_call.write_bytes 1 [], uart_call.write_bytes 1 [0x0D, 0x0A]] ∧
    (escpos_print_line (some [0]) (ready cfg_demo uart_idle)).2.uart.stream = [0x0D, 0x0A] ∧
    (escpos_print_line (some [0]) (ready cfg_demo uart_idle)).2.uart.stream
      ≠ uart_idle.stream := by
  decide

/-- C7 (amended): on an initialised session `escpos_print_line` given a null
line returns success and leaves session and transport untouched (no write);
given the empty string it hands the transport a write of no byte and then the
two bytes `0D 0A`, with no other call, and returns success when the transport
reports no error for these two writes. -/
theorem print_line_null_or_empty (cfg : escpos_config_t) (u : uart_t) (line : List Nat)
    (hempty : strlen line = 0) :
    escpos_print_line none (ready cfg u) = (ESP_OK, ready cfg u) ∧
    (escpos_print_line (some line) (ready cfg u)).2.uart.calls
      = u.calls ++ [uart_call.write_bytes cfg.uart_num [],
                    uart_call.write_bytes cfg.uart_num [0x0D, 0x0A]] ∧
    (escpos_print_line (some line) (ready cfg u)).2.uart.stream = u.stream ++ [0x0D, 0x0A] ∧
    (u.accepts 2 → (escpos_print_line (some line) (ready cfg u)).1 = ESP_OK) := by
  have hc : cstr line = [] := List.length_eq_zero.mp hempty
  have hcalls := escpos_print_line_calls cfg u line
  rw [hc] at hcalls
  refine ⟨rfl, hcalls, ?_, escpos_print_line_ok cfg u line⟩
  rw [stream_of_calls u _ _ hcalls]
  simp [writes_of]

/-- C7 (amended), at the empty string on an idle driver: the call succeeds
and the stream holds CR LF. -/
theorem print_line_null_or_empty_demo :
    escpos_print_line none (ready cfg_demo uart_idle) = (ESP_OK, ready cfg_demo uart_idle) ∧
    (escpos_print_line (some [0]) (ready cfg_demo uart_idle)).2.uart.stream
      = uart_idle.stream ++ [0x0D, 0x0A] ∧
    (escpos_print_line (some [0]) (ready cfg_demo uart_idle)).1 = ESP_OK := by
  have h := print_line_null_or_empty cfg_demo uart_idle [0] rfl
  exact ⟨h.1, h.2.2.1, h.2.2.2 (by decide)⟩

/-! ## Transport failures -/

/-- C8 (the code at the failing input): on an initialised session whose
driver reports an error for the next write and accepts the following one, the
first write of each two-write operation is reported as failed by
`escpos_uart_write`, yet `escpos_print_line`, `escpos_print_bitmap`,
`escpos_print_separator` and `escpos_print_item_price` return success. -/
theorem first_write_failure_is_lost :
    (escpos_uart_write [0x41, 0] 1 (ready cfg_demo uart_first_fails)).1 = ESP_FAIL ∧
    (escpos_print_line (some [0x41, 0]) (ready cfg_demo uart_first_fails)).1 = ESP_OK ∧
    (escpos_print_bitmap (some logo_test) 16 16 (ready cfg_demo uart_first_fails)).1
      = ESP_OK ∧
    (escpos_print_separator 0x2D (ready cfg_demo uart_first_fails)).1 = ESP_OK ∧
    (escpos_print_item_price (some texte_gauche) (some [0x33, 0x32, 0]) 32
        (ready cfg_demo uart_first_fails)).1 = ESP_OK := by
  decide

/-- C9 (as stated, refuted): on an initialised session `escpos_feed_lines`
issues a write of 3 bytes; when the driver reports that it took 1 byte only,
the operation returns success. -/
theorem short_write_is_success :
    (uart_write_bytes 1 [0x1B, 0x64, 3] 3 uart_short_write).1 = 1 ∧
    (escpos_feed_lines 3 (ready cfg_demo uart_short_write)).1 = ESP_OK ∧
    ESP_OK ≠ ESP_FAIL := by
  decide

/-- C9 (amended): a write issued on an initialised session is reported as
failed exactly when the driver returns a negative value, and the failure code is
`ESP_FAIL`; every non-negative return, in particular that of a partial write
(`0 <= written < len`), is reported as success. -/
theorem write_status_follows_sign (cfg : escpos_config_t) (u : uart_t)
    (buf : List Nat) (len : Nat) :
    ((uart_write_bytes cfg.uart_num buf len u).1 < 0 →
      (escpos_uart_write buf len (ready cfg u)).1 = ESP_FAIL) ∧
    (0 ≤ (uart_write_bytes cfg.uart_num buf len u).1 →
      (escpos_uart_write buf len (ready cfg u)).1 = ESP_OK) ∧
    (∀ (written : Int) (rest : List Int), u.write_results = written :: rest →
      0 ≤ written → written < len →
        (escpos_uart_write buf len (ready cfg u)).1 = ESP_OK) := by
  rw [escpos_uart_write_ready]
  refine ⟨?_, ?_, ?_⟩
  · intro h
    show (if _ then ESP_FAIL else ESP_OK) = ESP_FAIL
    rw [if_pos h]
  · intro h
    show (if _ then ESP_FAIL else ESP_OK) = ESP_OK
    rw [if_neg (not_lt.mpr h)]
  · intro written rest hr h0 _
    show (if _ then ESP_FAIL else ESP_OK) = ESP_OK
    rw [uart_write_bytes_result, hr]
    simp only [List.headD_cons]
    rw [if_neg (not_lt.mpr h0)]

/-! ## Fixed commands -/

theorem escpos_uart_write_calls (cfg : escpos_config_t) (u : uart_t) (buf : List Nat)
    (len : Nat) :
    (escpos_uart_write buf len (ready cfg u)).2.uart.calls
      = u.calls ++ [uart_call.write_bytes cfg.uart_num (buf.take len)] := by
  rw [escpos_uart_write_ready]
  exact uart_write_bytes_calls _ _ _ _

theorem escpos_set_justify_calls (cfg : escpos_config_t) (u : uart_t) (j : Nat) :
    (escpos_set_justify j (ready cfg u)).2.uart.calls
      = u.calls ++
        [uart_call.write_bytes cfg.uart_num
          [0x1B, 0x61, if j = 1 then 0x01 else if j = 2 then 0x02 else 0x00]] := by
  rcases j with _ | _ | _ | n
  · exact escpos_uart_write_calls cfg u _ 3
  · exact escpos_uart_write_calls cfg u _ 3
  · exact escpos_uart_write_calls cfg u _ 3
  · have h1 : ¬ (n + 1 + 1 + 1 = 1) := by omega
    have h2 : ¬ (n + 1 + 1 + 1 = 2) := by omega
    rw [if_neg h1, if_neg h2]
    exact escpos_uart_write_calls cfg u _ 3

/-- C11: on an initialised session `escpos_set_justify` writes exactly the
three bytes `1B 61 v` with `v = 00` for left (0), `01` for centre (1), `02` for
right (2) and `v = 00` for every other value; `escpos_justify_left`,
`escpos_justify_center` and `escpos_justify_right` write `1B 61 00`,
`1B 61 01` and `1B 61 02`. -/
theorem set_justify_bytes (cfg : escpos_config_t) (u : uart_t) (j : Nat) :
    (escpos_set_justify j (ready cfg u)).2.h = (ready cfg u).h ∧
    (escpos_set_justify j (ready cfg u)).2.uart.calls
      = u.calls ++
        [uart_call.write_bytes cfg.uart_num
          [0x1B, 0x61, if j = 1 then 0x01 else if j = 2 then 0x02 else 0x00]] ∧
    (2 < j → (escpos_set_justify j (ready cfg u)).2.uart.calls
      = u.calls ++ [uart_call.write_bytes cfg.uart_num [0x1B, 0x61, 0x00]]) ∧
    (escpos_justify_left (ready cfg u)).2.uart.calls
      = u.calls ++ [uart_call.write_bytes cfg.uart_num [0x1B, 0x61, 0x00]] ∧
    (escpos_justify_center (ready cfg u)).2.uart.calls
      = u.calls ++ [uart_call.write_bytes cfg.uart_num [0x1B, 0x61, 0x01]] ∧
    (escpos_justify_right (ready cfg u)).2.uart.calls
      = u.calls ++ [uart_call.write_bytes cfg.uart_num [0x1B, 0x61, 0x02]] := by
  refine ⟨?_, escpos_set_justify_calls cfg u j, ?_, escpos_set_justify_calls cfg u 0,
    escpos_set_justify_calls cfg u 1, escpos_set_justify_calls cfg u 2⟩
  · rcases j with _ | _ | _ | n <;> rfl
  · intro hj
    have h1 : ¬ (j = 1) := by omega
    have h2 : ¬ (j = 2) := by omega
    rw [escpos_set_justify_calls, if_neg h1, if_neg h2]

/-- C13: on an initialised session each fixed three-byte command is one
write of its table sequence: `escpos_feed_lines n` writes `1B 64 n`;
`escpos_set_bold` writes `1B 45 01` for true and `1B 45 00` for false;
`escpos_set_reverse` writes `1D 42 01` for true and `1D 42 00` for false;
`escpos_cut` writes `1D 56 01` for a partial cut and `1D 56 00` for a full
one. -/
theorem fixed_commands_bytes (cfg : escpos_config_t) (u : uart_t) (n : Nat) :
    (escpos_feed_lines n (ready cfg u)).2.uart.calls
      = u.calls ++ [uart_call.write_bytes cfg.uart_num [0x1B, 0x64, n]] ∧
    (escpos_set_bold true (ready cfg u)).2.uart.calls
      = u.calls ++ [uart_call.write_bytes cfg.uart_num [0x1B, 0x45, 0x01]] ∧
    (escpos_set_bold false (ready cfg u)).2.uart.calls
      = u.calls ++ [uart_call.write_bytes cfg.uart_num [0x1B, 0x45, 0x00]] ∧
    (escpos_set_reverse true (ready cfg u)).2.uart.calls
      = u.calls ++ [uart_call.write_bytes cfg.uart_num [0x1D, 0x42, 0x01]] ∧
    (escpos_set_reverse false (ready cfg u)).2.uart.calls
      = u.calls ++ [uart_call.write_bytes cfg.uart_num [0x1D, 0x42, 0x00]] ∧
    (escpos_cut true (ready cfg u)).2.uart.calls
      = u.calls ++ [uart_call.write_bytes cfg.uart_num [0x1D, 0x56, 0x01]] ∧
    (escpos_cut false (ready cfg u)).2.uart.calls
      = u.calls ++ [uart_call.write_bytes cfg.uart_num [0x1D, 0x56, 0x00]] ∧
    (escpos_feed_lines n (ready cfg u)).2.h = (ready cfg u).h ∧
    (∀ b, (escpos_set_bold b (ready cfg u)).2.h = (ready cfg u).h ∧
      (escpos_set_reverse b (ready cfg u)).2.h = (ready cfg u).h ∧
      (escpos_cut b (ready cfg u)).2.h = (ready cfg u).h) := by
  refine ⟨escpos_uart_write_calls cfg u _ 3, escpos_uart_write_calls cfg u _ 3,
    escpos_uart_write_calls cfg u _ 3, escpos_uart_write_calls cfg u _ 3,
    escpos_uart_write_calls cfg u _ 3, escpos_uart_write_calls cfg u _ 3,
    escpos_uart_write_calls cfg u _ 3, rfl, ?_⟩
  intro b
  exact ⟨rfl, rfl, rfl⟩

/-! ## Italics -/

/-- C14 (the code at the failing input): on an initialised session
`escpos_set_italic` writes two bytes, but with the toggle reversed: `1B 35`
(ESC 5) when `enable` is true and `1B 34` (ESC 4) when it is false. -/
theorem set_italic_is_reversed (cfg : escpos_config_t) (u : uart_t) :
    (escpos_set_italic true (ready cfg u)).2.uart.calls
      = u.calls ++ [uart_call.write_bytes cfg.uart_num [0x1B, 0x35]] ∧
    (escpos_set_italic false (ready cfg u)).2.uart.calls
      = u.calls ++ [uart_call.write_bytes cfg.uart_num [0x1B, 0x34]] := by
  exact ⟨escpos_uart_write_calls cfg u _ 2, escpos_uart_write_calls cfg u _ 2⟩

/-! ## Separator -/

/-- C12 (as stated, refuted): for the character NUL the buffer of
`escpos_print_separator` is an empty string, and the transport is handed a
write of no byte and then CR LF: 2 bytes, not 32 copies of the character
followed by CR LF. -/
theorem print_separator_nul :
    (escpos_print_separator 0 (ready cfg_demo uart_idle)).2.uart.calls
      = [uart_call.write_bytes 1 [], uart_call.write_bytes 1 [0x0D, 0x0A]] ∧
    (escpos_print_separator 0 (ready cfg_demo uart_idle)).2.uart.stream = [0x0D, 0x0A] ∧
    (escpos_print_separator 0 (ready cfg_demo uart_idle)).2.uart.stream
      ≠ List.replicate 32 0 ++ [0x0D, 0x0A] := by
  decide

/-- C12 (amended): for every character `c` other than NUL, on an initialised
session, `escpos_print_separator` hands the transport exactly 32 copies of `c`
and then `0D 0A`, with no other call: 34 bytes in total. -/
theorem print_separator_bytes (cfg : escpos_config_t) (u : uart_t) (c : Nat) (hc : c ≠ 0) :
    (escpos_print_separator c (ready cfg u)).2.h = (ready cfg u).h ∧
    (escpos_print_separator c (ready cfg u)).2.uart.calls
      = u.calls ++ [uart_call.write_bytes cfg.uart_num (List.replicate 32 c),
                    uart_call.write_bytes cfg.uart_num [0x0D, 0x0A]] ∧
    (escpos_print_separator c (ready cfg u)).2.uart.stream
      = u.stream ++ List.replicate 32 c ++ [0x0D, 0x0A] ∧
    (escpos_print_separator c (ready cfg u)).2.uart.stream.length = u.stream.length + 34 := by
  have hcs : cstr (List.replicate 32 c ++ [0]) = List.replicate 32 c := by
    apply cstr_append_nul
    intro x hx
    rw [List.eq_of_mem_replicate hx]
    exact hc
  have hcalls : (escpos_print_separator c (ready cfg u)).2.uart.calls
      = u.calls ++ [uart_call.write_bytes cfg.uart_num (List.replicate 32 c),
                    uart_call.write_bytes cfg.uart_num [0x0D, 0x0A]] := by
    show (escpos_print_line (some (List.replicate 32 c ++ [0])) (ready cfg u)).2.uart.calls = _
    rw [escpos_print_line_calls, hcs]
  have hstream : (escpos_print_separator c (ready cfg u)).2.uart.stream
      = u.stream ++ List.replicate 32 c ++ [0x0D, 0x0A] := by
    rw [stream_of_calls u _ _ hcalls]
    simp [writes_of]
  refine ⟨rfl, hcalls, hstream, ?_⟩
  rw [hstream]
  simp

/-- C12 (amended), at the separator printed by `app_main`: 32 dashes and
CR LF. -/
theorem print_separator_bytes_demo :
    (escpos_print_separator 0x2D (ready cfg_demo uart_idle)).2.uart.stream
      = List.replicate 32 0x2D ++ [0x0D, 0x0A] := by
  have h := print_separator_bytes cfg_demo uart_idle 0x2D (by decide)
  rw [h.2.2.1]
  decide

/-! ## Init and deinit -/

/-- C15: when the three acquisition steps succeed (and the session can be
allocated), `escpos_init` installs the driver with the TX buffer size of the
configuration when it is positive and 2048 otherwise, configures the baud rate
of the configuration when it is positive and 19200 otherwise, assigns the
pins, then writes the two reset bytes `1B 40` once; it returns success and
the output handle is a session whose flag is true and whose configuration is a
copy of the caller's. -/
theorem init_acquires_and_resets (cfg : escpos_config_t) (h0 : escpos_handle_t) (u : uart_t)
    (h1 : u.install_result = ESP_OK) (h2 : u.param_result = ESP_OK)
    (h3 : u.pin_result = ESP_OK) :
    (escpos_init (some cfg) true true { h := h0, uart := u }).1 = ESP_OK ∧
    (escpos_init (some cfg) true true { h := h0, uart := u }).2.h
      = some { cfg := cfg, inited := true } ∧
    (escpos_init (some cfg) true true { h := h0, uart := u }).2.uart.calls
      = u.calls ++
        [uart_call.driver_install cfg.uart_num 256
           (if cfg.tx_buffer_size > 0 then cfg.tx_buffer_size else 2048),
         uart_call.param_config cfg.uart_num
           (if cfg.baud_rate > 0 then cfg.baud_rate else 19200),
         uart_call.set_pin cfg.uart_num cfg.tx_pin
           (if cfg.rx_pin ≥ 0 then cfg.rx_pin else -1) (-1) (-1),
         uart_call.write_bytes cfg.uart_num [0x1B, 0x40]] := by
  have key : escpos_init (some cfg) true true { h := h0, uart := u }
      = (ESP_OK, (escpos_uart_write [0x1B, 0x40] 2
          (ready cfg { u with calls := u.calls ++
            [uart_call.driver_install cfg.uart_num 256
               (if cfg.tx_buffer_size > 0 then cfg.tx_buffer_size else 2048),
             uart_call.param_config cfg.uart_num
               (if cfg.baud_rate > 0 then cfg.baud_rate else 19200),
             uart_call.set_pin cfg.uart_num cfg.tx_pin
               (if cfg.rx_pin ≥ 0 then cfg.rx_pin else -1) (-1) (-1)] })).2) := by
    simp [escpos_init, uart_driver_install, uart_param_config, uart_set_pin, h1, h2, h3, ready]
  rw [key]
  refine ⟨rfl, rfl, ?_⟩
  rw [escpos_uart_write_calls]
  simp

/-- C15, at the configuration of `app_main` on an idle driver: the driver is
installed with a TX buffer of 2048 bytes, configured at 9600 baud, the pins 0
and 1 are assigned and `1B 40` is written. -/
theorem init_acquires_and_resets_demo :
    (escpos_init (some cfg_demo) true true world_null).1 = ESP_OK ∧
    (escpos_init (some cfg_demo) true true world_null).2.h
      = some { cfg := cfg_demo, inited := true } ∧
    (escpos_init (some cfg_demo) true true world_null).2.uart.calls
      = [uart_call.driver_install 1 256 2048, uart_call.param_config 1 9600,
         uart_call.set_pin 1 0 1 (-1) (-1), uart_call.write_bytes 1 [0x1B, 0x40]] :=
  init_acquires_and_resets cfg_demo none uart_idle rfl rfl rfl

/-- C17 (as stated, refuted): `escpos_deinit` on the initialised session of
`app_main` releases the transport once, returns success and frees the session;
applied again to the same handle it does not succeed as a no-op: the call
works on freed memory and has no defined result. -/
theorem second_deinit_is_undefined :
    escpos_deinit (session_ptr.live { cfg := cfg_demo, inited := true }) uart_idle
      = some (ESP_OK, session_ptr.freed { cfg := cfg_demo, inited := false },
          { uart_idle with calls := [uart_call.driver_delete 1] }) ∧
    escpos_deinit (session_ptr.freed { cfg := cfg_demo, inited := false })
        { uart_idle with calls := [uart_call.driver_delete 1] } = none ∧
    escpos_deinit (session_ptr.freed { cfg := cfg_demo, inited := false })
        { uart_idle with calls := [uart_call.driver_delete 1] }
      ≠ some (ESP_OK, session_ptr.freed { cfg := cfg_demo, inited := false },
          { uart_idle with calls := [uart_call.driver_delete 1] }) := by
  decide

/-- C17 (amended): on a non-null session that is still allocated
`escpos_deinit` returns success; when the flag is true it releases the
transport exactly once (one `uart_driver_delete` on the session's port, no
other call) and clears the flag, when the flag is false it does not touch the
transport; in both cases the flag is false when the session record is freed,
and the handle points to freed memory afterwards. -/
theorem deinit_releases_and_frees (c : escpos_ctx_t) (u : uart_t) :
    (c.inited = true →
      escpos_deinit (session_ptr.live c) u
        = some (ESP_OK, session_ptr.freed { c with inited := false },
            { u with calls := u.calls ++ [uart_call.driver_delete c.cfg.uart_num] }) ∧
      releases_of (u.calls ++ [uart_call.driver_delete c.cfg.uart_num])
        = releases_of u.calls + 1) ∧
    (c.inited = false →
      escpos_deinit (session_ptr.live c) u = some (ESP_OK, session_ptr.freed c, u)) ∧
    (∃ last v, escpos_deinit (session_ptr.live c) u = some (ESP_OK, session_ptr.freed last, v) ∧
      last = { c with inited := false } ∧
      releases_of v.calls = releases_of u.calls + (if c.inited then 1 else 0)) := by
  obtain ⟨cfg, inited⟩ := c
  cases inited
  · refine ⟨fun h => Bool.noConfusion h, fun _ => rfl, ?_⟩
    exact ⟨_, _, rfl, rfl, rfl⟩
  · have hrel : releases_of (u.calls ++ [uart_call.driver_delete cfg.uart_num])
        = releases_of u.calls + 1 := by
      simp [releases_of, List.filter_append]
    refine ⟨fun _ => ⟨rfl, hrel⟩, fun h => Bool.noConfusion h, ?_⟩
    exact ⟨_, _, rfl, rfl, hrel⟩

/-! ## QR code -/

/-- C18: on an initialised session `escpos_print_qr`, for every payload,
every 8-bit module size and every error-correction level 0=L, 1=M, 2=Q, 3=H,
hands the transport, in this order and with nothing else, the five "GS ( k"
frames: select model (`fn` 65), set module size (`fn` 67), set the
error-correction level (`fn` 69, code 48 + level), store the payload (`fn` 80,
length field payload + 3) and print (`fn` 81). -/
theorem print_qr_frames (cfg : escpos_config_t) (u : uart_t) (data : List Nat)
    (module_size ecc_level : Nat) (hm : module_size < 256) (he : ecc_level ≤ 3) :
    (escpos_print_qr (some data) module_size ecc_level (ready cfg u)).2.h = (ready cfg u).h ∧
    (escpos_print_qr (some data) module_size ecc_level (ready cfg u)).2.uart.stream
      = u.stream
        ++ [0x1D, 0x28, 0x6B, 0x04, 0x00, 49, 65, 50, 0]
        ++ [0x1D, 0x28, 0x6B, 0x03, 0x00, 49, 67, module_size]
        ++ [0x1D, 0x28, 0x6B, 0x03, 0x00, 49, 69, 48 + ecc_level]
        ++ ([0x1D, 0x28, 0x6B, ((cstr data).length + 3) % 256,
              ((cstr data).length + 3) / 256 % 256, 49, 80, 48] ++ cstr data)
        ++ [0x1D, 0x28, 0x6B, 0x03, 0x00, 49, 81, 48] ∧
    (u.accepts 1 →
      (escpos_print_qr (some data) module_size ecc_level (ready cfg u)).1 = ESP_OK) := by
  have hcalls : (escpos_print_qr (some data) module_size ecc_level (ready cfg u)).2.uart.calls
      = u.calls ++ [uart_call.write_bytes cfg.uart_num (qr_encode data module_size ecc_level)] := by
    show (escpos_uart_write _ _ (ready cfg u)).2.uart.calls = _
    rw [escpos_uart_write_calls, List.take_length]
  have h1 : u8 module_size = module_size := Nat.mod_eq_of_lt hm
  have h2 : u8 (48 + ecc_level) = 48 + ecc_level := Nat.mod_eq_of_lt (by omega)
  have h3 : u8 ((strlen data + 3) % 256) = ((cstr data).length + 3) % 256 := by
    unfold u8 strlen cstr
    omega
  have h4 : u8 ((strlen data + 3) / 256) = ((cstr data).length + 3) / 256 % 256 := rfl
  refine ⟨rfl, ?_, ?_⟩
  · rw [stream_of_calls u _ _ hcalls]
    simp [writes_of, qr_encode, h1, h2, h3, h4]
  · intro hacc
    show (escpos_uart_write _ _ (ready cfg u)).1 = _
    rw [escpos_uart_write_ready]
    show (if _ then ESP_FAIL else ESP_OK) = ESP_OK
    rw [uart_write_bytes_result]
    apply if_neg
    unfold uart_t.accepts at hacc
    cases hr : u.write_results with
    | nil => simp
    | cons a t =>
      have ha : (0 : Int) ≤ a := hacc a (by simp [hr])
      simpa using ha

/-- C18, at the payload "AB" with module size 4 and level M. -/
theorem print_qr_frames_demo :
    (escpos_print_qr (some [0x41, 0x42, 0]) 4 1 (ready cfg_demo uart_idle)).2.uart.stream
      = [0x1D, 0x28, 0x6B, 0x04, 0x00, 0x31, 0x41, 0x32, 0x00,
         0x1D, 0x28, 0x6B, 0x03, 0x00, 0x31, 0x43, 0x04,
         0x1D, 0x28, 0x6B, 0x03, 0x00, 0x31, 0x45, 0x31,
         0x1D, 0x28, 0x6B, 0x05, 0x00, 0x31, 0x50, 0x30, 0x41, 0x42,
         0x1D, 0x28, 0x6B, 0x03, 0x00, 0x31, 0x51, 0x30] := by
  have h := print_qr_frames cfg_demo uart_idle [0x41, 0x42, 0] 4 1 (by decide) (by decide)
  rw [h.2.1]
  decide

/-! ## Bounds -/

/-- C19: for every item, price and `line_width`, on an initialised session,
the line `escpos_print_item_price` hands to `escpos_print_line` is the first
127 bytes of the item, `max(1, w - len(item) - len(price))` blanks and the
price (`w = 32` when `line_width <= 0`); it is that whole string exactly when
the string is at most 127 bytes long, and what is printed before CR LF is
never longer than 127 bytes. -/
theorem print_item_price_first_127 (cfg : escpos_config_t) (u : uart_t)
    (item price : List Nat) (line_width : Int) :
    escpos_print_item_price (some item) (some price) line_width (ready cfg u)
      = escpos_print_line
          (some (snprintf_pad 128 item (item_price_spaces item price line_width) price))
          (ready cfg u) ∧
    cstr (snprintf_pad 128 item (item_price_spaces item price line_width) price)
      = (item_price_line item price line_width).take 127 ∧
    (escpos_print_item_price (some item) (some price) line_width (ready cfg u)).2.uart.calls
      = u.calls ++
        [uart_call.write_bytes cfg.uart_num ((item_price_line item price line_width).take 127),
         uart_call.write_bytes cfg.uart_num [0x0D, 0x0A]] ∧
    ((item_price_line item price line_width).take 127 = item_price_line item price line_width
      ↔ (item_price_line item price line_width).length ≤ 127) ∧
    ((item_price_line item price line_width).take 127).length ≤ 127 := by
  refine ⟨escpos_print_item_price_line cfg u item price line_width, ?_,
    escpos_print_item_price_calls cfg u item price line_width, ?_, ?_⟩
  · rw [cstr_snprintf_pad]
    simp [item_price_line]
  · exact List.take_eq_self_iff _
  · rw [List.length_take]
    exact Nat.min_le_left _ _

theorem escpos_print_bitmap_calls (cfg : escpos_config_t) (u : uart_t) (bitmap : List Nat)
    (width height : Nat) :
    (escpos_print_bitmap (some bitmap) width height (ready cfg u)).2.uart.calls
      = u.calls ++
        [uart_call.write_bytes cfg.uart_num
           [0x1D, 0x76, 0x30, 0x00, u8 (width / 8 % 256), u8 (width / 8 / 256),
            u8 (height % 256), u8 (height / 256)],
         uart_call.write_bytes cfg.uart_num (bitmap.take (width / 8 * height))] := by
  show (escpos_uart_write bitmap (width / 8 * height)
      (escpos_uart_write _ 8 (ready cfg u)).2).2.uart.calls = _
  rw [escpos_uart_write_ready]
  show (escpos_uart_write bitmap (width / 8 * height) (ready cfg _)).2.uart.calls = _
  rw [escpos_uart_write_ready]
  show (uart_write_bytes _ _ _ _).2.calls = _
  rw [uart_write_bytes_calls, uart_write_bytes_calls]
  simp

/-- C20: for 16-bit `width` and `height` and a buffer that holds the picture,
the header written by `escpos_print_bitmap` carries `xL, xH, yL, yH` with
`xL + 256*xH = width/8` and `yL + 256*yH = height`, none of the four casts to
8 bits losing anything, and the payload handed to the transport has
`(xL + 256*xH) * (yL + 256*yH)` bytes; this product is at most `8191 * 65535`
and is not changed by 32-bit signed arithmetic. -/
theorem print_bitmap_dimensions (cfg : escpos_config_t) (u : uart_t) (bitmap : List Nat)
    (width height : Nat) (hwidth : width < 65536) (hheight : height < 65536)
    (hbuf : width / 8 * height ≤ bitmap.length) :
    (escpos_print_bitmap (some bitmap) width height (ready cfg u)).2.uart.calls
      = u.calls ++
        [uart_call.write_bytes cfg.uart_num
           [0x1D, 0x76, 0x30, 0x00, u8 (width / 8 % 256), u8 (width / 8 / 256),
            u8 (height % 256), u8 (height / 256)],
         uart_call.write_bytes cfg.uart_num (bitmap.take (width / 8 * height))] ∧
    (u8 (width / 8 % 256) = width / 8 % 256 ∧ u8 (width / 8 / 256) = width / 8 / 256 ∧
      u8 (height % 256) = height % 256 ∧ u8 (height / 256) = height / 256) ∧
    u8 (width / 8 % 256) + 256 * u8 (width / 8 / 256) = width / 8 ∧
    u8 (height % 256) + 256 * u8 (height / 256) = height ∧
    (bitmap.take (width / 8 * height)).length
      = (u8 (width / 8 % 256) + 256 * u8 (width / 8 / 256))
        * (u8 (height % 256) + 256 * u8 (height / 256)) ∧
    width / 8 * height ≤ 8191 * 65535 ∧
    to_int32 (((width / 8 * height : Nat) : Int)) = ((width / 8 * height : Nat) : Int) := by
  have hx : u8 (width / 8 % 256) + 256 * u8 (width / 8 / 256) = width / 8 := by
    unfold u8
    omega
  have hy : u8 (height % 256) + 256 * u8 (height / 256) = height := by
    unfold u8
    omega
  have hle : width / 8 * height ≤ 8191 * 65535 :=
    Nat.mul_le_mul (by omega) (by omega)
  refine ⟨escpos_print_bitmap_calls cfg u bitmap width height, ⟨?_, ?_, ?_, ?_⟩, hx, hy, ?_,
    hle, ?_⟩
  · unfold u8; omega
  · unfold u8; omega
  · unfold u8; omega
  · unfold u8; omega
  · rw [hx, hy, List.length_take]
    exact Nat.min_eq_left hbuf
  · unfold to_int32
    have h0 : (0 : Int) ≤ ((width / 8 * height : Nat) : Int) := Int.ofNat_nonneg _
    have h1 : ((width / 8 * height : Nat) : Int) ≤ 8191 * 65535 := by exact_mod_cast hle
    omega

/-- C20, at the picture printed by `app_main`: `xL = 2`, `xH = 0`, `yL = 16`,
`yH = 0` and a payload of `2 * 16 = 32` bytes. -/
theorem print_bitmap_dimensions_demo :
    (escpos_print_bitmap (some logo_test) 16 16 (ready cfg_demo uart_idle)).2.uart.calls
      = [uart_call.write_bytes 1 [0x1D, 0x76, 0x30, 0x00, 2, 0, 16, 0],
         uart_call.write_bytes 1 logo_test] ∧
    (List.take (16 / 8 * 16) logo_test).length = (2 + 256 * 0) * (16 + 256 * 0) ∧
    to_int32 32 = 32 := by
  have h := print_bitmap_dimensions cfg_demo uart_idle logo_test 16 16
    (by decide) (by decide) (by decide)
  exact ⟨h.1, h.2.2.2.2.1, h.2.2.2.2.2.2⟩

end Escpos
